import Mathlib

/-!
Verification of the YTGrabber download-orchestration core (src/main.py).

The Python source is shallowly embedded: pure helper functions become Lean
functions over `List Char` / `String`, the stateful queue scheduler becomes a
state-passing function on an explicit record, and the worker `run` methods
become functions from an environment (subprocess exit codes, emitted output
lines, filesystem facts) to the list of Qt signal emissions they produce.
Machine integers are modelled as `Int`/`Nat` (Python integers are unbounded),
and decimal values parsed by `float(...)` are modelled exactly as rationals
(IEEE rounding of non-representable decimals is not modelled; no claim
depends on it).
-/

/-! ## Decimal digit strings (modelling Python `int(...)`, `float(...)` and
    `f"{n:02d}"` formatting on the strings this program produces) -/

/-- The character for decimal digit `d` (meaningful for `d < 10`). -/
def digitChar (d : ℕ) : Char := Char.ofNat (48 + d)

/-- Decimal digit list of `n`, most significant first, as Python `str(n)`
    produces for a non-negative integer. -/
def natToDigits (n : ℕ) : List Char :=
  if _h : n < 10 then [digitChar n]
  else natToDigits (n / 10) ++ [digitChar (n % 10)]
termination_by n
decreasing_by exact Nat.div_lt_self (by omega) (by omega)

/-- Python `f"{n:02d}"` zero padding: pad on the left with `'0'` to width 2. -/
def pad2 (l : List Char) : List Char := List.replicate (2 - l.length) '0' ++ l

/-- Numeric value of one digit character, `none` when not a digit. -/
def digitVal? (c : Char) : Option ℕ :=
  if c.isDigit then some (c.toNat - 48) else none

/-- Accumulating parse of a decimal digit string; fails on any non-digit. -/
def parseDigitsFrom (acc : ℕ) : List Char → Option ℕ
  | [] => some acc
  | c :: r =>
    match digitVal? c with
    | some d => parseDigitsFrom (acc * 10 + d) r
    | none => none

/-- Parse of a non-empty all-digit string (unsigned part of Python `int`). -/
def parseNat (l : List Char) : Option ℕ :=
  if l = [] then none else parseDigitsFrom 0 l

/-- Python `int(s)` on strings as they occur in this program: an optional
    sign followed by decimal digits; `none` models the `ValueError` that the
    callers catch.  (Python also tolerates surrounding whitespace, which
    cannot occur in the colon-separated fields this program feeds to `int`.) -/
def parseInt (l : List Char) : Option ℤ :=
  match l with
  | [] => none
  | c :: r =>
    if c = '-' then (parseNat r).map (fun m => -(m : ℤ))
    else if c = '+' then (parseNat r).map (fun m => (m : ℤ))
    else (parseNat (c :: r)).map (fun m => (m : ℤ))

/-- Python `s.split(":")` on a character list. -/
def splitOnCol : List Char → List (List Char)
  | [] => [[]]
  | c :: r =>
    if c = ':' then [] :: splitOnCol r
    else
      match splitOnCol r with
      | [] => [[c]]
      | h :: t => (c :: h) :: t

/-! ## Time-format helpers (main.py lines 82-108) -/

/-- `seconds_to_hhmmss` (main.py 82-90): `if not seconds: return "00:00:00"`,
    else `divmod` into hours/minutes/seconds and format `HH:MM:SS` with
    `02d` zero padding. -/
def seconds_to_hhmmss (s : ℕ) : List Char :=
  if s = 0 then ['0', '0', ':', '0', '0', ':', '0', '0']
  else
    let hrs := s / 3600
    let rem := s % 3600
    let mins := rem / 60
    let secs := rem % 60
    pad2 (natToDigits hrs) ++ ':' :: pad2 (natToDigits mins)
      ++ ':' :: pad2 (natToDigits secs)

/-- `hhmmss_to_seconds` (main.py 93-108): empty/whitespace input gives 0;
    split on `':'`; three fields give `hh*3600+mm*60+ss`, two give
    `mm*60+ss`, otherwise `int` of the whole string; every `ValueError`
    (non-numeric field) is caught and gives 0. -/
def hhmmss_to_seconds (l : List Char) : ℤ :=
  if l.all Char.isWhitespace then 0
  else
    match splitOnCol l with
    | [a, b, c] =>
      match parseInt a, parseInt b, parseInt c with
      | some hh, some mm, some ss => hh * 3600 + mm * 60 + ss
      | _, _, _ => 0
    | [a, b] =>
      match parseInt a, parseInt b with
      | some mm, some ss => mm * 60 + ss
      | _, _ => 0
    | _ => (parseInt l).getD 0

/-! ### Round-trip lemmas for the time helpers -/

theorem digitVal_digitChar {n : ℕ} (h : n < 10) : digitVal? (digitChar n) = some n := by
  interval_cases n <;> decide

theorem digitChar_isDigit {n : ℕ} (h : n < 10) : (digitChar n).isDigit = true := by
  interval_cases n <;> decide

theorem natToDigits_ne_nil (n : ℕ) : natToDigits n ≠ [] := by
  rw [natToDigits]
  split <;> simp

theorem natToDigits_all_digit (n : ℕ) :
    ∀ c ∈ natToDigits n, c.isDigit = true := by
  induction n using Nat.strong_induction_on with
  | _ n ih =>
    rw [natToDigits]
    by_cases h : n < 10
    · rw [dif_pos h]
      intro c hc
      simp only [List.mem_singleton] at hc
      subst hc
      exact digitChar_isDigit h
    · rw [dif_neg h]
      intro c hc
      rw [List.mem_append] at hc
      rcases hc with hc | hc
      · exact ih (n / 10) (Nat.div_lt_self (by omega) (by omega)) c hc
      · simp only [List.mem_singleton] at hc
        subst hc
        exact digitChar_isDigit (Nat.mod_lt _ (by omega))

theorem parseDigitsFrom_append (l₁ l₂ : List Char) :
    ∀ acc, parseDigitsFrom acc (l₁ ++ l₂)
      = (parseDigitsFrom acc l₁).bind (fun m => parseDigitsFrom m l₂) := by
  induction l₁ with
  | nil => intro acc; simp [parseDigitsFrom]
  | cons c r ih =>
    intro acc
    simp only [List.cons_append, parseDigitsFrom]
    cases digitVal? c with
    | none => simp
    | some d => simp [ih]

theorem parseDigitsFrom_natToDigits (n : ℕ) :
    ∀ acc, parseDigitsFrom acc (natToDigits n)
      = some (acc * 10 ^ (natToDigits n).length + n) := by
  induction n using Nat.strong_induction_on with
  | _ n ih =>
    intro acc
    rw [natToDigits]
    by_cases h : n < 10
    · rw [dif_pos h]
      simp [parseDigitsFrom, digitVal_digitChar h]
    · rw [dif_neg h]
      rw [parseDigitsFrom_append]
      rw [ih (n / 10) (Nat.div_lt_self (by omega) (by omega)) acc]
      have hr : n % 10 < 10 := Nat.mod_lt n (by omega)
      simp only [Option.some_bind, parseDigitsFrom, digitVal_digitChar hr,
        List.length_append, List.length_singleton]
      congr 1
      have hdm : 10 * (n / 10) + n % 10 = n := Nat.div_add_mod n 10
      set L := (natToDigits (n / 10)).length with hL
      calc (acc * 10 ^ L + n / 10) * 10 + n % 10
          = acc * (10 ^ L * 10) + (10 * (n / 10) + n % 10) := by ring
        _ = acc * 10 ^ (L + 1) + n := by rw [hdm, pow_succ]

theorem parseNat_natToDigits (n : ℕ) : parseNat (natToDigits n) = some n := by
  rw [parseNat, if_neg (by simpa using natToDigits_ne_nil n)]
  rw [parseDigitsFrom_natToDigits]
  simp

theorem parseDigitsFrom_zero_pad (k : ℕ) (l : List Char) :
    parseDigitsFrom 0 (List.replicate k '0' ++ l) = parseDigitsFrom 0 l := by
  induction k with
  | zero => simp
  | succ m ih =>
    simp only [List.replicate_succ, List.cons_append, parseDigitsFrom]
    have : digitVal? '0' = some 0 := by decide
    rw [this]
    simpa using ih

theorem parseNat_pad2_natToDigits (n : ℕ) :
    parseNat (pad2 (natToDigits n)) = some n := by
  rw [pad2, parseNat]
  rw [if_neg (by simp [natToDigits_ne_nil n])]
  rw [parseDigitsFrom_zero_pad]
  have h := parseNat_natToDigits n
  rw [parseNat, if_neg (by simpa using natToDigits_ne_nil n)] at h
  exact h

theorem pad2_all_digit (n : ℕ) :
    ∀ c ∈ pad2 (natToDigits n), c.isDigit = true := by
  intro c hc
  rw [pad2, List.mem_append] at hc
  rcases hc with hc | hc
  · rw [List.eq_of_mem_replicate hc]
    decide
  · exact natToDigits_all_digit n c hc

theorem parseInt_of_digits (l : List Char) (hne : l ≠ [])
    (hd : ∀ c ∈ l, c.isDigit = true) :
    parseInt l = (parseNat l).map (fun m => (m : ℤ)) := by
  cases l with
  | nil => exact absurd rfl hne
  | cons c r =>
    have hc : c.isDigit = true := hd c (by simp)
    have h1 : ¬ c = '-' := by rintro rfl; simp at hc
    have h2 : ¬ c = '+' := by rintro rfl; simp at hc
    simp [parseInt, h1, h2]

theorem parseInt_pad2_natToDigits (n : ℕ) :
    parseInt (pad2 (natToDigits n)) = some (n : ℤ) := by
  rw [parseInt_of_digits _ (by simp [pad2, natToDigits_ne_nil n]) (pad2_all_digit n)]
  rw [parseNat_pad2_natToDigits]
  rfl

theorem pad2_no_colon (n : ℕ) : ∀ c ∈ pad2 (natToDigits n), c ≠ ':' := by
  intro c hc
  have := pad2_all_digit n c hc
  rintro rfl
  simp at this

theorem splitOnCol_append_colon (a r : List Char) (ha : ∀ c ∈ a, c ≠ ':') :
    splitOnCol (a ++ ':' :: r) = a :: splitOnCol r := by
  induction a with
  | nil => simp [splitOnCol]
  | cons c t ih =>
    have hc : c ≠ ':' := ha c (by simp)
    simp only [List.cons_append, splitOnCol, if_neg hc]
    rw [List.append_eq, ih (fun x hx => ha x (by simp [hx]))]

theorem splitOnCol_no_colon (a : List Char) (ha : ∀ c ∈ a, c ≠ ':') :
    splitOnCol a = [a] := by
  induction a with
  | nil => rfl
  | cons c t ih =>
    have hc : c ≠ ':' := ha c (by simp)
    simp only [splitOnCol, if_neg hc]
    rw [ih (fun x hx => ha x (by simp [hx]))]

/-- C10: converting a non-negative integer number of seconds to `HH:MM:SS`
    text with `seconds_to_hhmmss` and parsing it back with
    `hhmmss_to_seconds` returns the original value: the two time-format
    helpers round-trip on non-negative integers. -/
theorem claimC10_time_roundtrip (s : ℕ) :
    hhmmss_to_seconds (seconds_to_hhmmss s) = (s : ℤ) := by
  by_cases hs : s = 0
  · subst hs
    decide
  · rw [seconds_to_hhmmss, if_neg hs]
    set A := pad2 (natToDigits (s / 3600)) with hA
    set B := pad2 (natToDigits (s % 3600 / 60)) with hB
    set C := pad2 (natToDigits (s % 3600 % 60)) with hC
    rw [hhmmss_to_seconds]
    rw [if_neg (by
      intro hall
      rw [List.all_eq_true] at hall
      have hmem : ':' ∈ A ++ ':' :: B ++ ':' :: C := by simp
      have := hall _ hmem
      simp at this)]
    have hsplit : splitOnCol (A ++ ':' :: B ++ ':' :: C) = [A, B, C] := by
      have h1 : splitOnCol (B ++ ':' :: C) = B :: splitOnCol C :=
        splitOnCol_append_colon B C (pad2_no_colon _)
      have h2 : splitOnCol C = [C] := splitOnCol_no_colon C (pad2_no_colon _)
      calc splitOnCol (A ++ ':' :: B ++ ':' :: C)
          = splitOnCol (A ++ ':' :: (B ++ ':' :: C)) := by simp
        _ = A :: splitOnCol (B ++ ':' :: C) :=
            splitOnCol_append_colon A _ (pad2_no_colon _)
        _ = [A, B, C] := by rw [h1, h2]
    rw [hsplit]
    simp only [hA, hB, hC, parseInt_pad2_natToDigits]
    have harith : s / 3600 * 3600 + s % 3600 / 60 * 60 + s % 3600 % 60 = s := by
      omega
    exact_mod_cast harith

/-! ## Worker signal events

One inductive covers every Qt signal a `DownloadWorker` or `TrimWorker`
can emit (`progress`, `progress_text`, `speed_update`, `paused`,
`finished`, `error`). -/

inductive WEvent where
  | pausedSig (b : Bool)
  | progressText (s : String)
  | progress (n : ℤ)
  | speedUpdate (speed : ℚ) (eta : ℤ)
  | finished (path : String) (size : ℕ)
  | error (msg : String)
  deriving DecidableEq, Repr

/-- A terminal event of a worker: `finished` or `error`. -/
def isTerminalEvent : WEvent → Bool
  | .finished _ _ => true
  | .error _ => true
  | _ => false

def isSpeedEvent : WEvent → Bool
  | .speedUpdate _ _ => true
  | _ => false

def isProgressEvent : WEvent → Bool
  | .progress _ => true
  | _ => false

def isErrorEvent : WEvent → Bool
  | .error _ => true
  | _ => false

def isFinishedEvent : WEvent → Bool
  | .finished _ _ => true
  | _ => false

/-! ## Regular-expression matching as the progress parser uses it

`DownloadWorker._parse_progress` uses three patterns via `re.search`:
a decimal percentage directly followed by a percent sign, and two
token-after-keyword patterns (a keyword, one or more whitespace
characters, then a maximal non-whitespace capture).  In all three, the
greedy sub-patterns are over disjoint character classes, so `re.search`
is exactly leftmost maximal-munch matching, which is what these
functions implement. -/

/-- Split off the maximal digit prefix. -/
def takeDigits : List Char → List Char × List Char
  | [] => ([], [])
  | c :: r =>
    if c.isDigit then
      let p := takeDigits r
      (c :: p.1, p.2)
    else ([], c :: r)

/-- Value of an all-digit string (as `int`/`float` read one). -/
def digitsVal (l : List Char) : ℕ :=
  l.foldl (fun a c => a * 10 + (c.toNat - 48)) 0

/-- Exact rational value of the decimal numeral `d1 . d2`. -/
def decimalVal (d1 d2 : List Char) : ℚ :=
  (digitsVal d1 : ℚ) + (digitsVal d2 : ℚ) / 10 ^ d2.length

/-- Try the pattern of percentage digits at the head of `l`:
    digits, a dot, digits, then a percent sign; returns the two digit
    groups of the capture. -/
def matchPercentAt (l : List Char) : Option (List Char × List Char) :=
  let p1 := takeDigits l
  if p1.1 = [] then none
  else
    match p1.2 with
    | '.' :: r2 =>
      let p2 := takeDigits r2
      if p2.1 = [] then none
      else
        match p2.2 with
        | '%' :: _ => some (p1.1, p2.1)
        | _ => none
    | _ => none

/-- Leftmost match of the decimal-percentage pattern in `l`. -/
def searchPercent : List Char → Option (List Char × List Char)
  | [] => none
  | c :: r =>
    match matchPercentAt (c :: r) with
    | some m => some m
    | none => searchPercent r

/-- Try keyword-then-token at the head of `l`: the keyword `tok`, one or
    more whitespace characters, then a maximal non-empty non-whitespace
    capture. -/
def matchTokenAt (tok l : List Char) : Option (List Char) :=
  if tok.isPrefixOf l then
    let r0 := l.drop tok.length
    let pws := r0.span Char.isWhitespace
    if pws.1 = [] then none
    else
      let pcap := pws.2.span (fun c => !c.isWhitespace)
      if pcap.1 = [] then none else some pcap.1
  else none

/-- Leftmost match of keyword-then-token in `l`. -/
def searchToken (tok : List Char) : List Char → Option (List Char)
  | [] => none
  | c :: r =>
    match matchTokenAt tok (c :: r) with
    | some cap => some cap
    | none => searchToken tok r

/-- Python substring containment (`sub in line`). -/
def containsSub (sub : List Char) : List Char → Bool
  | [] => sub.isEmpty
  | c :: r => sub.isPrefixOf (c :: r) || containsSub sub r

/-- Python `s.endswith(t)`. -/
def endsWith (l s : List Char) : Bool := s.reverse.isPrefixOf l.reverse

/-! ## Speed / ETA parsing (main.py 388-425) -/

/-- Python `float(s)` on the unsigned decimal numerals this program feeds
    it: digits with an optional fractional part, or a bare fractional
    part.  `none` models the caught `ValueError`.  (Exponent forms,
    underscores and inf/nan, which Python would also accept, are not
    modelled; no token in the verified claims uses them.) -/
def parseUFloat (l : List Char) : Option ℚ :=
  let p1 := takeDigits l
  match p1.2 with
  | [] => if p1.1 = [] then none else some (digitsVal p1.1 : ℚ)
  | '.' :: r2 =>
    let p2 := takeDigits r2
    if p2.2 = [] then
      if p1.1 = [] ∧ p2.1 = [] then none
      else some (decimalVal p1.1 p2.1)
    else none
  | _ => none

/-- Python `float(s)` with an optional sign. -/
def parseFloat (l : List Char) : Option ℚ :=
  match l with
  | [] => none
  | c :: r =>
    if c = '-' then (parseUFloat r).map Neg.neg
    else if c = '+' then parseUFloat r
    else parseUFloat (c :: r)

/-- First step of `DownloadWorker._parse_speed`: strip a trailing `/s`
    (`speed_str = speed_str[:-2]`). -/
def strip_slash_s (l : List Char) : List Char :=
  if endsWith l ['/', 's'] then l.take (l.length - 2) else l

/-- Second step of `DownloadWorker._parse_speed`: dispatch on the unit
    suffix with binary multipliers; any `ValueError` from `float` is
    caught and yields 0. -/
def speed_unit_dispatch (l1 : List Char) : ℚ :=
  if endsWith l1 ['K', 'i', 'B'] then
    match parseFloat (l1.take (l1.length - 3)) with
    | some q => q * 1024
    | none => 0
  else if endsWith l1 ['M', 'i', 'B'] then
    match parseFloat (l1.take (l1.length - 3)) with
    | some q => q * (1024 * 1024)
    | none => 0
  else if endsWith l1 ['G', 'i', 'B'] then
    match parseFloat (l1.take (l1.length - 3)) with
    | some q => q * (1024 * 1024 * 1024)
    | none => 0
  else if endsWith l1 ['B'] then
    match parseFloat (l1.take (l1.length - 1)) with
    | some q => q
    | none => 0
  else 0

/-- `DownloadWorker._parse_speed` (main.py 388-405). -/
def parse_speed (l : List Char) : ℚ := speed_unit_dispatch (strip_slash_s l)

/-- `DownloadWorker._parse_eta` (main.py 407-425): literal `Unknown`
    gives 0 seconds; `HH:MM:SS` and `MM:SS` convert to seconds; any
    other shape, or a field `int` rejects, gives 0.  The first component
    returns the token text as the Python function does. -/
def parse_eta (l : List Char) : List Char × ℤ :=
  if l = ['U', 'n', 'k', 'n', 'o', 'w', 'n'] then (l, 0)
  else
    match splitOnCol l with
    | [a, b, c] =>
      match parseInt a, parseInt b, parseInt c with
      | some hh, some mm, some ss => (l, hh * 3600 + mm * 60 + ss)
      | _, _, _ => (l, 0)
    | [a, b] =>
      match parseInt a, parseInt b with
      | some mm, some ss => (l, mm * 60 + ss)
      | _, _ => (l, 0)
    | _ => (l, 0)

/-! ## The progress parser (`DownloadWorker._parse_progress`, main.py 352-386) -/

/-- One line of subprocess output through `_parse_progress`: the line is
    always forwarded to `progress_text`; a downloading line (containing
    `[download]` and a percent sign) may add a percent event
    (`int(float(...))` of the decimal match, no clamping), a speed event
    with ETA 0 whenever the speed token matches, and a second speed
    event carrying the ETA only when the ETA converts to positive
    seconds; otherwise stage-marker lines force synthetic percents 95
    and 98. -/
def parse_progress (line : String) : List WEvent :=
  let l := line.data
  WEvent.progressText line ::
  (if containsSub "[download]".data l && containsSub "%".data l then
    (match searchPercent l with
     | some p => [WEvent.progress ((decimalVal p.1 p.2).floor)]
     | none => []) ++
    (match searchToken "at".data l with
     | some s => [WEvent.speedUpdate (parse_speed s) 0]
     | none => []) ++
    (match searchToken "ETA".data l, searchToken "at".data l with
     | some e, some s =>
       if 0 < (parse_eta e).2 then
         [WEvent.speedUpdate (parse_speed s) (parse_eta e).2]
       else []
     | _, _ => [])
  else if containsSub "Merging".data l || containsSub "Converting".data l
      || containsSub "Post-processing".data l then
    [WEvent.progress 95]
  else if containsSub "Deleting original file".data l then
    [WEvent.progress 98]
  else [])

/-! ### Facts about digit runs and matched groups -/

theorem digit_toNat_bounds (c : Char) (h : c.isDigit = true) :
    48 ≤ c.toNat ∧ c.toNat ≤ 57 := by
  simp only [Char.isDigit, Bool.and_eq_true, decide_eq_true_eq, ge_iff_le] at h
  obtain ⟨h1, h2⟩ := h
  exact ⟨UInt32.le_toNat_of_le (by norm_num [UInt32.size]) h1,
         UInt32.toNat_le_of_le (by norm_num [UInt32.size]) h2⟩

theorem takeDigits_fst_digits (l : List Char) :
    ∀ c ∈ (takeDigits l).1, c.isDigit = true := by
  induction l with
  | nil => simp [takeDigits]
  | cons c r ih =>
    by_cases h : c.isDigit = true
    · simp only [takeDigits, h, if_true]
      intro x hx
      rcases List.mem_cons.mp hx with hx | hx
      · subst hx; exact h
      · exact ih x hx
    · simp [takeDigits, h]

theorem digitsVal_foldl_lt (l : List Char) :
    ∀ acc, (∀ c ∈ l, c.isDigit = true) →
      l.foldl (fun a c => a * 10 + (c.toNat - 48)) acc < (acc + 1) * 10 ^ l.length := by
  induction l with
  | nil => intro acc _; simp
  | cons c r ih =>
    intro acc h
    have hc : c.isDigit = true := h c (by simp)
    have hd : c.toNat - 48 ≤ 9 := by
      have := digit_toNat_bounds c hc
      omega
    simp only [List.foldl_cons, List.length_cons]
    calc List.foldl (fun a c => a * 10 + (c.toNat - 48)) (acc * 10 + (c.toNat - 48)) r
        < (acc * 10 + (c.toNat - 48) + 1) * 10 ^ r.length :=
          ih _ (fun x hx => h x (by simp [hx]))
      _ ≤ ((acc + 1) * 10) * 10 ^ r.length :=
          Nat.mul_le_mul_right _ (by omega)
      _ = (acc + 1) * 10 ^ (r.length + 1) := by rw [pow_succ]; ring

theorem digitsVal_lt (l : List Char) (h : ∀ c ∈ l, c.isDigit = true) :
    digitsVal l < 10 ^ l.length := by
  have := digitsVal_foldl_lt l 0 h
  simpa [digitsVal] using this

/-- Truncation: the floor of the decimal value `d1 . d2` is the value of the
    integer part (Python's `int(float(...))` for the non-negative decimals
    the percentage pattern matches). -/
theorem floor_decimalVal (d1 d2 : List Char) (h2 : ∀ c ∈ d2, c.isDigit = true) :
    (decimalVal d1 d2).floor = (digitsVal d1 : ℤ) := by
  have hfrac0 : (0 : ℚ) ≤ (digitsVal d2 : ℚ) / 10 ^ d2.length := by positivity
  have hfrac1 : (digitsVal d2 : ℚ) / 10 ^ d2.length < 1 := by
    rw [div_lt_one (by positivity)]
    exact_mod_cast digitsVal_lt d2 h2
  have hlow : (digitsVal d1 : ℤ) ≤ (decimalVal d1 d2).floor := by
    rw [Rat.le_floor]
    unfold decimalVal
    push_cast
    linarith
  have hhigh : ¬ ((digitsVal d1 : ℤ) + 1 ≤ (decimalVal d1 d2).floor) := by
    rw [Rat.le_floor]
    unfold decimalVal
    push_cast
    linarith
  omega

theorem matchPercentAt_digits {l : List Char} {p : List Char × List Char}
    (h : matchPercentAt l = some p) :
    (∀ c ∈ p.1, c.isDigit = true) ∧ (∀ c ∈ p.2, c.isDigit = true) := by
  simp only [matchPercentAt] at h
  split at h
  · exact absurd h (by simp)
  · split at h
    · split at h
      · exact absurd h (by simp)
      · split at h
        · obtain rfl := Option.some_inj.mp h
          exact ⟨takeDigits_fst_digits _, takeDigits_fst_digits _⟩
        · exact absurd h (by simp)
    · exact absurd h (by simp)

theorem searchPercent_digits {l : List Char} {p : List Char × List Char}
    (h : searchPercent l = some p) :
    (∀ c ∈ p.1, c.isDigit = true) ∧ (∀ c ∈ p.2, c.isDigit = true) := by
  induction l with
  | nil => simp [searchPercent] at h
  | cons c r ih =>
    rw [searchPercent] at h
    cases hm : matchPercentAt (c :: r) with
    | some m =>
      rw [hm] at h
      have : m = p := Option.some_inj.mp h
      subst this
      exact matchPercentAt_digits hm
    | none =>
      rw [hm] at h
      exact ih h

/-! ### The events a downloading line produces, by kind -/

/-- The speed events of one parsed line, on a downloading line (one that
    contains `[download]` and a percent sign). -/
theorem parse_progress_filter_speed (line : String)
    (h : (containsSub "[download]".data line.data
          && containsSub "%".data line.data) = true) :
    List.filter isSpeedEvent (parse_progress line) =
      (match searchToken ['a', 't'] line.data with
       | some s =>
         WEvent.speedUpdate (parse_speed s) 0 ::
           (match searchToken ['E', 'T', 'A'] line.data with
            | some e =>
              if 0 < (parse_eta e).2 then
                [WEvent.speedUpdate (parse_speed s) (parse_eta e).2]
              else []
            | none => [])
       | none => []) := by
  simp only [parse_progress]
  rw [if_pos h]
  rcases hsp : searchPercent line.data with _ | p <;>
    rcases hat : searchToken ['a', 't'] line.data with _ | s <;>
      rcases heta : searchToken ['E', 'T', 'A'] line.data with _ | e <;>
        simp only [List.filter, List.filter_append, isSpeedEvent] <;>
          simp [isSpeedEvent]

/-- The percent events of one parsed line, on a downloading line. -/
theorem parse_progress_filter_percent (line : String)
    (h : (containsSub "[download]".data line.data
          && containsSub "%".data line.data) = true) :
    List.filter isProgressEvent (parse_progress line) =
      (match searchPercent line.data with
       | some p => [WEvent.progress ((decimalVal p.1 p.2).floor)]
       | none => []) := by
  simp only [parse_progress]
  rw [if_pos h]
  rcases hsp : searchPercent line.data with _ | p <;>
    rcases hat : searchToken ['a', 't'] line.data with _ | s <;>
      rcases heta : searchToken ['E', 'T', 'A'] line.data with _ | e <;>
        simp only [List.filter, List.filter_append, isProgressEvent] <;>
          simp [isProgressEvent]

/-- The sample speed token of the spec converts exactly: 1.5 mebibytes per
    second is 1572864 bytes per second. -/
theorem parse_speed_sample :
    parse_speed ['1', '.', '5', 'M', 'i', 'B', '/', 's'] = 1572864 := by
  have h1 : parse_speed ['1', '.', '5', 'M', 'i', 'B', '/', 's']
      = decimalVal ['1'] ['5'] * (1024 * 1024) := rfl
  have h2 : digitsVal ['1'] = 1 := by decide
  have h3 : digitsVal ['5'] = 5 := by decide
  rw [h1, decimalVal, h2, h3]
  norm_num

/-! ### Claims C6 and C7: what the progress parser emits -/

/-- C6 counterexample: on a downloading line whose ETA token is the
    literal `Unknown` (so it converts to 0 seconds), the parser still
    emits a speed event — `speed_update(speed, 0)` fires whenever the speed
    token matches — refuting the claim that no speed event is emitted for a
    line without a positive-seconds ETA. -/
theorem claimC6_counterexample :
    searchToken ['E', 'T', 'A'] "[download]  50.0% of ~10.00MiB at 1.5MiB/s ETA Unknown".data
      = some ['U', 'n', 'k', 'n', 'o', 'w', 'n']
    ∧ (parse_eta ['U', 'n', 'k', 'n', 'o', 'w', 'n']).2 = 0
    ∧ List.filter isSpeedEvent
        (parse_progress "[download]  50.0% of ~10.00MiB at 1.5MiB/s ETA Unknown")
      = [WEvent.speedUpdate 1572864 0] := by
  refine ⟨by decide, by decide, ?_⟩
  rw [parse_progress_filter_speed _ (by decide)]
  rw [show searchToken ['a', 't']
        "[download]  50.0% of ~10.00MiB at 1.5MiB/s ETA Unknown".data
      = some "1.5MiB/s".data from by decide]
  rw [show searchToken ['E', 'T', 'A']
        "[download]  50.0% of ~10.00MiB at 1.5MiB/s ETA Unknown".data
      = some "Unknown".data from by decide]
  simp only [show (parse_eta "Unknown".data).2 = 0 from by decide,
    parse_speed_sample]
  norm_num

/-- C6 (amended): on a downloading line, a speed event with ETA 0 is
    emitted whenever the speed token matches, regardless of the ETA; a
    second speed event carrying the ETA is emitted exactly when the ETA
    token also matches and converts to positive seconds (only that combined
    event is suppressed for an absent/`Unknown`/zero ETA); and the raw line
    is always forwarded to the log sink as the head `progressText` event. -/
theorem claimC6_speed_event_policy (line : String)
    (h : (containsSub "[download]".data line.data
          && containsSub "%".data line.data) = true) :
    List.filter isSpeedEvent (parse_progress line) =
      (match searchToken ['a', 't'] line.data with
       | some s =>
         WEvent.speedUpdate (parse_speed s) 0 ::
           (match searchToken ['E', 'T', 'A'] line.data with
            | some e =>
              if 0 < (parse_eta e).2 then
                [WEvent.speedUpdate (parse_speed s) (parse_eta e).2]
              else []
            | none => [])
       | none => [])
    ∧ (parse_progress line).head? = some (WEvent.progressText line) := by
  exact ⟨parse_progress_filter_speed line h, by simp [parse_progress]⟩

/-- C6 witness: a downloading line with a valid speed token and an ETA of
    one minute thirty seconds produces both the ETA-0 speed event and the
    combined speed-and-ETA event. -/
theorem claimC6_speed_event_policy_witness :
    List.filter isSpeedEvent
        (parse_progress "[download]  50.0% of ~10.00MiB at 1.5MiB/s ETA 00:01:30")
      = [WEvent.speedUpdate 1572864 0, WEvent.speedUpdate 1572864 90] := by
  rw [(claimC6_speed_event_policy
    "[download]  50.0% of ~10.00MiB at 1.5MiB/s ETA 00:01:30" (by decide)).1]
  rw [show searchToken ['a', 't']
        "[download]  50.0% of ~10.00MiB at 1.5MiB/s ETA 00:01:30".data
      = some "1.5MiB/s".data from by decide]
  rw [show searchToken ['E', 'T', 'A']
        "[download]  50.0% of ~10.00MiB at 1.5MiB/s ETA 00:01:30".data
      = some "00:01:30".data from by decide]
  simp only [show (parse_eta "00:01:30".data).2 = 90 from by decide,
    parse_speed_sample]
  norm_num

/-- C7 counterexample: a downloading line whose decimal percentage is 150.5
    yields a percent event of 150, outside [0,100] — the parser does not
    clamp, refuting the claim that every emitted percent value lies in
    [0,100]. -/
theorem claimC7_counterexample :
    List.filter isProgressEvent (parse_progress "[download] 150.5% of video")
      = [WEvent.progress 150]
    ∧ ¬ ((150 : ℤ) ≤ 100) := by
  refine ⟨?_, by decide⟩
  rw [parse_progress_filter_percent _ (by decide)]
  rw [show searchPercent "[download] 150.5% of video".data
      = some (['1', '5', '0'], ['5']) from by decide]
  simp only [show (decimalVal ['1', '5', '0'] ['5']).floor = 150 from by
    rw [floor_decimalVal _ _ (by decide)]
    decide]

/-- C7 (amended): on a downloading line the percent events are exactly the
    floor (truncation, as `int(float(...))`) of the leftmost decimal
    percentage match, with no clamping to [0,100]; when the decimal pattern
    does not match, no percent event is emitted (and the parser is a total
    function, so malformed values cannot crash it). -/
theorem claimC7_percent_extraction (line : String)
    (h : (containsSub "[download]".data line.data
          && containsSub "%".data line.data) = true) :
    List.filter isProgressEvent (parse_progress line) =
      (match searchPercent line.data with
       | some p => [WEvent.progress ((decimalVal p.1 p.2).floor)]
       | none => [])
    ∧ (∀ p, searchPercent line.data = some p →
        (decimalVal p.1 p.2).floor = (digitsVal p.1 : ℤ)) := by
  refine ⟨parse_progress_filter_percent line h, ?_⟩
  intro p hp
  exact floor_decimalVal p.1 p.2 (searchPercent_digits hp).2

/-- C7 witness: a downloading line carrying `23.4%` yields precisely the
    truncated percent event 23. -/
theorem claimC7_percent_extraction_witness :
    List.filter isProgressEvent (parse_progress "[download]  23.4% of video")
      = [WEvent.progress 23] := by
  rw [(claimC7_percent_extraction "[download]  23.4% of video" (by decide)).1]
  rw [show searchPercent "[download]  23.4% of video".data
      = some (['2', '3'], ['4']) from by decide]
  simp only [show (decimalVal ['2', '3'] ['4']).floor = 23 from by
    rw [floor_decimalVal _ _ (by decide)]
    decide]

/-! ### Claim C9: speed-token conversion -/

theorem endsWith_append (x s : List Char) : endsWith (x ++ s) s = true := by
  simp [endsWith, List.reverse_append, List.isPrefixOf_iff_prefix]

theorem take_sub_append (x s : List Char) :
    (x ++ s).take ((x ++ s).length - s.length) = x := by
  have h : (x ++ s).length - s.length = x.length := by simp
  rw [h]
  exact List.take_left x s

theorem strip_slash_s_append (x : List Char) :
    strip_slash_s (x ++ ['/', 's']) = x := by
  rw [strip_slash_s, if_pos (endsWith_append x ['/', 's'])]
  exact take_sub_append x ['/', 's']

theorem not_isPrefixOf_cons_ne {a b : Char} (h : a ≠ b) (l r : List Char) :
    List.isPrefixOf (a :: l) (b :: r) = false := by
  rw [Bool.eq_false_iff]
  intro hcon
  rw [List.isPrefixOf_iff_prefix, List.cons_prefix_cons] at hcon
  exact h hcon.1

theorem isPrefixOf_cons_same (a : Char) (l r : List Char) :
    List.isPrefixOf (a :: l) (a :: r) = List.isPrefixOf l r := by
  simp [List.isPrefixOf]

/-- C9 (amended): a decimal speed token with unit B, KiB, MiB, or GiB and a
    trailing `/s` converts to bytes per second with the binary multipliers
    1, 1024, 1024², 1024³ — in particular `1.5MiB/s` converts to exactly
    1572864 — and an absent speed token yields no speed event; an
    unparseable matched token, however, converts to 0 and still yields a
    zero-valued speed event (the counterexample), so only the
    absent-token half of the original claim's last clause survives. -/
theorem claimC9_speed_conversion (t : List Char) (q : ℚ)
    (hq : parseUFloat t = some q)
    (hc : ∀ c ∈ t, c.isDigit = true ∨ c = '.') :
    parse_speed (t ++ ['B', '/', 's']) = q
    ∧ parse_speed (t ++ ['K', 'i', 'B', '/', 's']) = q * 1024
    ∧ parse_speed (t ++ ['M', 'i', 'B', '/', 's']) = q * (1024 * 1024)
    ∧ parse_speed (t ++ ['G', 'i', 'B', '/', 's']) = q * (1024 * 1024 * 1024)
    ∧ parse_speed ['1', '.', '5', 'M', 'i', 'B', '/', 's'] = 1572864
    ∧ (∀ line : String, searchToken ['a', 't'] line.data = none →
        List.filter isSpeedEvent (parse_progress line) = []) := by
  have ht : t ≠ [] := by
    rintro rfl
    simp [parseUFloat, takeDigits] at hq
  have hpf : parseFloat t = some q := by
    cases t with
    | nil => exact absurd rfl ht
    | cons c r =>
      rcases hc c (List.mem_cons_self c r) with hcd | hcd
      · have h1 : ¬ c = '-' := by rintro rfl; exact absurd hcd (by decide)
        have h2 : ¬ c = '+' := by rintro rfl; exact absurd hcd (by decide)
        simp only [parseFloat]
        rw [if_neg h1, if_neg h2]
        exact hq
      · subst hcd
        simp only [parseFloat]
        rw [if_neg (by decide), if_neg (by decide)]
        exact hq
  obtain ⟨d, rest, hrev⟩ : ∃ d rest, t.reverse = d :: rest := by
    cases hr : t.reverse with
    | nil => exact absurd (List.reverse_eq_nil_iff.mp hr) ht
    | cons d rest => exact ⟨d, rest, rfl⟩
  have hdmem : d ∈ t := by
    have hm : d ∈ t.reverse := by rw [hrev]; exact List.mem_cons_self _ _
    exact List.mem_reverse.mp hm
  have hdi : d ≠ 'i' := by
    rcases hc d hdmem with h | h
    · rintro rfl; exact absurd h (by decide)
    · subst h; decide
  have hB : parse_speed (t ++ ['B', '/', 's']) = q := by
    have e1 : t ++ ['B', '/', 's'] = (t ++ ['B']) ++ ['/', 's'] := by simp
    rw [parse_speed, e1, strip_slash_s_append]
    have hrevB : (t ++ ['B']).reverse = 'B' :: d :: rest := by
      rw [List.reverse_append, hrev]; rfl
    have hK : endsWith (t ++ ['B']) ['K', 'i', 'B'] = false := by
      rw [endsWith, hrevB,
        show (['K', 'i', 'B'] : List Char).reverse = ['B', 'i', 'K'] from rfl,
        isPrefixOf_cons_same]
      exact not_isPrefixOf_cons_ne (Ne.symm hdi) _ _
    have hM : endsWith (t ++ ['B']) ['M', 'i', 'B'] = false := by
      rw [endsWith, hrevB,
        show (['M', 'i', 'B'] : List Char).reverse = ['B', 'i', 'M'] from rfl,
        isPrefixOf_cons_same]
      exact not_isPrefixOf_cons_ne (Ne.symm hdi) _ _
    have hG : endsWith (t ++ ['B']) ['G', 'i', 'B'] = false := by
      rw [endsWith, hrevB,
        show (['G', 'i', 'B'] : List Char).reverse = ['B', 'i', 'G'] from rfl,
        isPrefixOf_cons_same]
      exact not_isPrefixOf_cons_ne (Ne.symm hdi) _ _
    have hBs : endsWith (t ++ ['B']) ['B'] = true := endsWith_append t ['B']
    simp [speed_unit_dispatch, hK, hM, hG, hBs, List.take_left, hpf]
  have hKiB : parse_speed (t ++ ['K', 'i', 'B', '/', 's']) = q * 1024 := by
    have e1 : t ++ ['K', 'i', 'B', '/', 's'] = (t ++ ['K', 'i', 'B']) ++ ['/', 's'] := by
      simp
    rw [parse_speed, e1, strip_slash_s_append]
    have h1 : endsWith (t ++ ['K', 'i', 'B']) ['K', 'i', 'B'] = true :=
      endsWith_append _ _
    simp [speed_unit_dispatch, h1, List.take_left, hpf]
  have hMiB : parse_speed (t ++ ['M', 'i', 'B', '/', 's']) = q * (1024 * 1024) := by
    have e1 : t ++ ['M', 'i', 'B', '/', 's'] = (t ++ ['M', 'i', 'B']) ++ ['/', 's'] := by
      simp
    rw [parse_speed, e1, strip_slash_s_append]
    have hK : endsWith (t ++ ['M', 'i', 'B']) ['K', 'i', 'B'] = false := by
      rw [endsWith,
        show (t ++ ['M', 'i', 'B']).reverse = 'B' :: 'i' :: 'M' :: t.reverse from by
          rw [List.reverse_append]; rfl,
        show (['K', 'i', 'B'] : List Char).reverse = ['B', 'i', 'K'] from rfl,
        isPrefixOf_cons_same, isPrefixOf_cons_same]
      exact not_isPrefixOf_cons_ne (by decide) _ _
    have h1 : endsWith (t ++ ['M', 'i', 'B']) ['M', 'i', 'B'] = true :=
      endsWith_append _ _
    simp [speed_unit_dispatch, hK, h1, List.take_left, hpf]
  have hGiB : parse_speed (t ++ ['G', 'i', 'B', '/', 's']) = q * (1024 * 1024 * 1024) := by
    have e1 : t ++ ['G', 'i', 'B', '/', 's'] = (t ++ ['G', 'i', 'B']) ++ ['/', 's'] := by
      simp
    rw [parse_speed, e1, strip_slash_s_append]
    have hK : endsWith (t ++ ['G', 'i', 'B']) ['K', 'i', 'B'] = false := by
      rw [endsWith,
        show (t ++ ['G', 'i', 'B']).reverse = 'B' :: 'i' :: 'G' :: t.reverse from by
          rw [List.reverse_append]; rfl,
        show (['K', 'i', 'B'] : List Char).reverse = ['B', 'i', 'K'] from rfl,
        isPrefixOf_cons_same, isPrefixOf_cons_same]
      exact not_isPrefixOf_cons_ne (by decide) _ _
    have hM : endsWith (t ++ ['G', 'i', 'B']) ['M', 'i', 'B'] = false := by
      rw [endsWith,
        show (t ++ ['G', 'i', 'B']).reverse = 'B' :: 'i' :: 'G' :: t.reverse from by
          rw [List.reverse_append]; rfl,
        show (['M', 'i', 'B'] : List Char).reverse = ['B', 'i', 'M'] from rfl,
        isPrefixOf_cons_same, isPrefixOf_cons_same]
      exact not_isPrefixOf_cons_ne (by decide) _ _
    have h1 : endsWith (t ++ ['G', 'i', 'B']) ['G', 'i', 'B'] = true :=
      endsWith_append _ _
    simp [speed_unit_dispatch, hK, hM, h1, List.take_left, hpf]
  have habs : ∀ line : String, searchToken ['a', 't'] line.data = none →
      List.filter isSpeedEvent (parse_progress line) = [] := by
    intro line hnone
    simp only [parse_progress]
    by_cases hd : (containsSub "[download]".data line.data
        && containsSub "%".data line.data) = true
    · rw [if_pos hd]
      rcases hsp : searchPercent line.data with _ | p <;>
        rcases heta : searchToken ['E', 'T', 'A'] line.data with _ | e <;>
          simp [hnone, isSpeedEvent, List.filter_append, List.filter]
    · rw [if_neg hd]
      by_cases h95 : (containsSub "Merging".data line.data
          || containsSub "Converting".data line.data
          || containsSub "Post-processing".data line.data) = true
      · rw [if_pos h95]; simp [isSpeedEvent]
      · rw [if_neg h95]
        by_cases h98 : containsSub "Deleting original file".data line.data = true
        · rw [if_pos h98]; simp [isSpeedEvent]
        · rw [if_neg h98]; simp [isSpeedEvent]
  exact ⟨hB, hKiB, hMiB, hGiB, parse_speed_sample, habs⟩

/-- C9 witness: the conversion theorem applied to the token `1.5` with the
    KiB unit, giving 1536 bytes per second. -/
theorem claimC9_speed_conversion_witness :
    parse_speed (['1', '.', '5'] ++ ['K', 'i', 'B', '/', 's']) = (3 / 2 : ℚ) * 1024 := by
  refine (claimC9_speed_conversion ['1', '.', '5'] (3 / 2) ?_ (by decide)).2.1
  have h1 : parseUFloat ['1', '.', '5'] = some (decimalVal ['1'] ['5']) := rfl
  rw [h1, decimalVal, show digitsVal ['1'] = 1 from by decide,
    show digitsVal ['5'] = 5 from by decide]
  norm_num

/-- C9 counterexample: the line has a speed token `???` that `_parse_speed`
    cannot parse (it converts to 0), yet a speed event is emitted for the
    line — refuting the claim that an unparseable speed token yields no
    speed event. -/
theorem claimC9_counterexample :
    parse_speed ['?', '?', '?'] = 0
    ∧ List.filter isSpeedEvent (parse_progress "[download] 20.0% at ??? ETA Unknown")
        = [WEvent.speedUpdate 0 0]
    ∧ ([WEvent.speedUpdate 0 0] : List WEvent) ≠ [] := by
  refine ⟨rfl, ?_, by simp⟩
  rw [parse_progress_filter_speed _ (by decide)]
  rw [show searchToken ['a', 't'] "[download] 20.0% at ??? ETA Unknown".data
      = some ['?', '?', '?'] from by decide]
  rw [show searchToken ['E', 'T', 'A'] "[download] 20.0% at ??? ETA Unknown".data
      = some ['U', 'n', 'k', 'n', 'o', 'w', 'n'] from by decide]
  simp only [show (parse_eta ['U', 'n', 'k', 'n', 'o', 'w', 'n']).2 = 0 from by decide,
    show parse_speed ['?', '?', '?'] = 0 from rfl]
  norm_num

/-! ## Command-line assembly (`DownloadWorker.run`, main.py 242-309) -/

/-- A Python value as it occurs in the `extra_options` dict. -/
inductive OptVal where
  | pyTrue
  | pyFalse
  | pyNone
  | pyStr (s : String)
  | pyInt (n : ℤ)
  deriving DecidableEq, Repr

/-- Python `str(v)` on an `OptVal`. -/
def py_str_of : OptVal → String
  | .pyTrue => "True"
  | .pyFalse => "False"
  | .pyNone => "None"
  | .pyStr s => s
  | .pyInt n => toString n

/-- The network/retry settings `DownloadWorker.run` reads from `QSettings`
    (all stored as strings; `cookies_file_exists` models the
    `os.path.exists(cookies_file)` check). -/
structure DlSettings where
  rate_limit : String
  timeout : String
  proxy : String
  geo_bypass : String
  cookies_file : String
  cookies_file_exists : Bool
  retries : String
  deriving DecidableEq, Repr

/-- The per-job constructor arguments of `DownloadWorker` (main.py 216-224).
    The `extra_options` dict is an association list in insertion order with
    distinct keys. -/
structure DlParams where
  url : String
  output_filename : String
  format_id : String
  extra_options : List (String × OptVal)
  is_audio_only : Bool
  deriving DecidableEq, Repr

/-- The argument list `DownloadWorker.run` assembles (main.py 242-309),
    transcribed append-by-append: base invocation, progress flags, ffmpeg
    location, `-f` from the popped `format` extra option or else the
    format id (when non-empty), output template, post-processing profile by
    mode, optional rate-limit/timeout/proxy/geo-bypass/cookies/retries, the
    remaining extra options (a fold mirroring the Python loop), and the URL
    last.  (A non-string `format` value would make `Popen` raise in Python;
    `py_str_of` stands for the value, which callers only ever pass as a
    string.) -/
def build_cmd (p : DlParams) (st : DlSettings) (ffmpeg : String) : List String :=
  ["yt-dlp", "--newline"]
  ++ ["--progress"]
  ++ ["--ffmpeg-location", ffmpeg]
  ++ (match p.extra_options.lookup "format" with
      | some v => ["-f", py_str_of v]
      | none => if p.format_id ≠ "" then ["-f", p.format_id] else [])
  ++ ["-o", p.output_filename]
  ++ (if p.is_audio_only then
        ["--postprocessor-args", "ffmpeg:-c:a aac -b:a 256k -ar 48000"]
      else
        ["--postprocessor-args", "ffmpeg:-c:a aac -b:a 192k -ar 48000 -c:v copy"])
  ++ (if st.rate_limit ≠ "" ∧ st.rate_limit ≠ "0" then
        ["--limit-rate", st.rate_limit ++ "K"]
      else [])
  ++ ["--socket-timeout", st.timeout]
  ++ (if st.proxy ≠ "" then ["--proxy", st.proxy] else [])
  ++ (if st.geo_bypass = "true" then ["--geo-bypass"] else [])
  ++ (if st.cookies_file ≠ "" ∧ st.cookies_file_exists then
        ["--cookies", st.cookies_file]
      else [])
  ++ ["--retries", st.retries]
  ++ (p.extra_options.filter (fun kv => kv.1 != "format")).foldl
      (fun acc kv =>
        acc ++ (match kv.2 with
                | .pyTrue => ["--" ++ kv.1]
                | .pyFalse => []
                | .pyNone => []
                | .pyStr s => ["--" ++ kv.1, s]
                | .pyInt n => ["--" ++ kv.1, toString n]))
      []
  ++ [p.url]

/-- The contribution of one remaining `extra_options` entry, as a function
    of the entry alone. -/
def extra_option_args : String × OptVal → List String
  | (k, .pyTrue) => ["--" ++ k]
  | (_, .pyFalse) => []
  | (_, .pyNone) => []
  | (k, .pyStr s) => ["--" ++ k, s]
  | (k, .pyInt n) => ["--" ++ k, toString n]

/-- Everything `build_cmd` places before the extra-options loop. -/
def build_cmd_head (p : DlParams) (st : DlSettings) (ffmpeg : String) : List String :=
  ["yt-dlp", "--newline"]
  ++ ["--progress"]
  ++ ["--ffmpeg-location", ffmpeg]
  ++ (match p.extra_options.lookup "format" with
      | some v => ["-f", py_str_of v]
      | none => if p.format_id ≠ "" then ["-f", p.format_id] else [])
  ++ ["-o", p.output_filename]
  ++ (if p.is_audio_only then
        ["--postprocessor-args", "ffmpeg:-c:a aac -b:a 256k -ar 48000"]
      else
        ["--postprocessor-args", "ffmpeg:-c:a aac -b:a 192k -ar 48000 -c:v copy"])
  ++ (if st.rate_limit ≠ "" ∧ st.rate_limit ≠ "0" then
        ["--limit-rate", st.rate_limit ++ "K"]
      else [])
  ++ ["--socket-timeout", st.timeout]
  ++ (if st.proxy ≠ "" then ["--proxy", st.proxy] else [])
  ++ (if st.geo_bypass = "true" then ["--geo-bypass"] else [])
  ++ (if st.cookies_file ≠ "" ∧ st.cookies_file_exists then
        ["--cookies", st.cookies_file]
      else [])
  ++ ["--retries", st.retries]

theorem foldl_extra_options (l : List (String × OptVal)) :
    ∀ acc : List String,
      l.foldl
        (fun acc kv =>
          acc ++ (match kv.2 with
                  | .pyTrue => ["--" ++ kv.1]
                  | .pyFalse => []
                  | .pyNone => []
                  | .pyStr s => ["--" ++ kv.1, s]
                  | .pyInt n => ["--" ++ kv.1, toString n]))
        acc
      = acc ++ l.flatMap extra_option_args := by
  induction l with
  | nil => intro acc; simp
  | cons kv r ih =>
    intro acc
    obtain ⟨k, v⟩ := kv
    cases v <;> simp [List.foldl_cons, ih, extra_option_args]

/-! ### Claim C8: extra-option argument mapping -/

/-- C8 counterexample: an `extra_options` entry whose value is the empty
    string is NOT omitted — `"" is not False and "" is not None`, so the
    assembled command contains the bare `--foo` flag followed by an empty
    argument, refuting the claim that false-or-empty values are omitted
    entirely. -/
theorem claimC8_counterexample :
    build_cmd ⟨"u", "o", "", [("foo", OptVal.pyStr "")], false⟩
        ⟨"0", "10", "", "false", "", false, "10"⟩ "ffmpeg"
      = ["yt-dlp", "--newline", "--progress", "--ffmpeg-location", "ffmpeg",
         "-o", "o",
         "--postprocessor-args", "ffmpeg:-c:a aac -b:a 192k -ar 48000 -c:v copy",
         "--socket-timeout", "10", "--retries", "10",
         "--foo", "", "u"]
    ∧ "--foo" ∈ build_cmd ⟨"u", "o", "", [("foo", OptVal.pyStr "")], false⟩
        ⟨"0", "10", "", "false", "", false, "10"⟩ "ffmpeg" := by
  refine ⟨by decide, by decide⟩

/-- C8 (amended): the assembled command is the fixed head, then for each
    remaining `extra_options` entry (the `format` key having been popped
    for `-f`): value `True` contributes the bare flag `--k`; a string value
    `s` — including the empty string — contributes `--k` followed by `s`; a
    number contributes `--k` followed by its decimal text; `False` and
    `None` contribute nothing; and the URL comes last. -/
theorem claimC8_extra_option_mapping (p : DlParams) (st : DlSettings) (ffmpeg : String) :
    build_cmd p st ffmpeg
      = build_cmd_head p st ffmpeg
        ++ (p.extra_options.filter (fun kv => kv.1 != "format")).flatMap extra_option_args
        ++ [p.url]
    ∧ (∀ k, extra_option_args (k, OptVal.pyTrue) = ["--" ++ k])
    ∧ (∀ k s, extra_option_args (k, OptVal.pyStr s) = ["--" ++ k, s])
    ∧ (∀ k n, extra_option_args (k, OptVal.pyInt n) = ["--" ++ k, toString n])
    ∧ (∀ k, extra_option_args (k, OptVal.pyFalse) = [])
    ∧ (∀ k, extra_option_args (k, OptVal.pyNone) = []) := by
  refine ⟨?_, fun _ => rfl, fun _ _ => rfl, fun _ _ => rfl, fun _ => rfl, fun _ => rfl⟩
  rw [build_cmd, build_cmd_head, foldl_extra_options]
  simp [List.append_assoc]

/-! ## Download worker execution (`DownloadWorker.run`, main.py 234-350)

The environment records what the outside world does during one complete
execution: whether launching the subprocess raises (any exception inside
the `try` is caught by the single `except` and becomes one `error`
emission), the stripped non-empty output lines read from the process, the
process exit status, and the state of the destination file at the end. -/

structure DlEnv where
  launch_fails : Bool
  exc_msg : String
  output_lines : List String
  exit_code : ℤ
  dest_exists : Bool
  dest_size : ℕ
  deriving DecidableEq, Repr

/-- The signal emissions of one complete `DownloadWorker.run` execution, in
    order: `paused(False)`, the command echo, every output line through
    `_parse_progress`, then exactly one terminal event — `error` carrying
    the exit code on non-zero exit, else `finished` with the destination
    size (0 when the destination file is missing). -/
def download_run (p : DlParams) (st : DlSettings) (ffmpeg : String)
    (env : DlEnv) : List WEvent :=
  WEvent.pausedSig false ::
  WEvent.progressText ("Starting download with options: "
      ++ String.intercalate " " (build_cmd p st ffmpeg)) ::
  (if env.launch_fails then
    [WEvent.error ("Download error: " ++ env.exc_msg)]
  else
    env.output_lines.flatMap parse_progress
    ++ (if env.exit_code ≠ 0 then
          [WEvent.error ("Download failed with return code "
              ++ toString env.exit_code)]
        else
          [WEvent.finished p.output_filename
              (if env.dest_exists then env.dest_size else 0)]))

/-- `DownloadWorker.stop` (main.py 432-440) emits no signal of its own: it
    sets the stop flag, clears the paused flag, and terminates the owned
    process; the run loop then observes the process exit and still emits
    its one terminal event. -/
def download_stop_events : List WEvent := []

/-- One complete download-worker execution, with or without a `stop()`
    request during the run (the interleaving position does not matter for
    counting: `stop` contributes no events). -/
def download_execution (p : DlParams) (st : DlSettings) (ffmpeg : String)
    (env : DlEnv) (stopRequested : Bool) : List WEvent :=
  (if stopRequested then download_stop_events else [])
  ++ download_run p st ffmpeg env

/-! ## Trim worker execution (`TrimWorker.run`, main.py 457-569)

The five stages: 1 video fetch, 2 audio fetch, 3 video cut, 4 audio cut,
5 remux.  Stages 3-5 run under `subprocess.run(..., check=True)`, so a
non-zero exit raises `CalledProcessError`, which the `with` block lets
through after removing the scratch directory and the `except` turns into
one `error` emission.  `tmp_removed` records that the
`tempfile.TemporaryDirectory` context manager removed the scratch
directory, which it does on every exit path including exceptions. -/

structure TrimEnv where
  url : String
  output : String
  start_t : String
  end_t : String
  video_exit : ℤ
  video_lines : List String
  audio_exit : ℤ
  audio_lines : List String
  vidcut_exit : ℤ
  audcut_exit : ℤ
  mux_exit : ℤ
  out_exists : Bool
  out_size : ℕ
  deriving DecidableEq, Repr

structure TrimResult where
  events : List WEvent
  stages_run : List ℕ
  tmp_removed : Bool
  deriving DecidableEq, Repr

/-- Message of the `CalledProcessError` a failed stage raises, as wrapped
    by the `except` clause.  (The Python text embeds `str(e)` and a
    traceback; only the `Trim error: ` prelude, the stage and the exit code
    are modelled — no claim depends on the rest of the text.) -/
def trim_stage_error_msg (stage : ℕ) (code : ℤ) : String :=
  "Trim error: stage " ++ toString stage ++ " exited with " ++ toString code

/-- One complete `TrimWorker.run` execution (main.py 457-565). -/
def trim_run (env : TrimEnv) : TrimResult :=
  let e1 := WEvent.progress 5
    :: WEvent.progressText ("Downloading full video from " ++ env.url)
    :: env.video_lines.map WEvent.progressText
  if env.video_exit ≠ 0 then
    ⟨e1 ++ [WEvent.error ("Video download failed with code "
        ++ toString env.video_exit)], [1], true⟩
  else
    let e2 := e1 ++ WEvent.progress 40 :: WEvent.progressText "Downloading audio stream"
      :: env.audio_lines.map WEvent.progressText
    if env.audio_exit ≠ 0 then
      ⟨e2 ++ [WEvent.error ("Audio download failed with code "
          ++ toString env.audio_exit)], [1, 2], true⟩
    else
      let e3 := e2 ++ [WEvent.progress 70,
        WEvent.progressText ("Trimming video from " ++ env.start_t
            ++ " to " ++ env.end_t)]
      if env.vidcut_exit ≠ 0 then
        ⟨e3 ++ [WEvent.error (trim_stage_error_msg 3 env.vidcut_exit)], [1, 2, 3], true⟩
      else if env.audcut_exit ≠ 0 then
        ⟨e3 ++ [WEvent.error (trim_stage_error_msg 4 env.audcut_exit)], [1, 2, 3, 4], true⟩
      else if env.mux_exit ≠ 0 then
        ⟨e3 ++ [WEvent.error (trim_stage_error_msg 5 env.mux_exit)],
          [1, 2, 3, 4, 5], true⟩
      else if env.out_exists then
        ⟨e3 ++ [WEvent.progress 100, WEvent.finished env.output env.out_size],
          [1, 2, 3, 4, 5], true⟩
      else
        ⟨e3 ++ [WEvent.progress 100,
          WEvent.error "Trim error: missing output file"], [1, 2, 3, 4, 5], true⟩

/-- `TrimWorker.stop` (main.py 567-569): its entire body is
    `self.error.emit("Trim operation cancelled.")` — it does not set any
    flag, terminate any process, or stop the run loop. -/
def trim_stop_events : List WEvent := [WEvent.error "Trim operation cancelled."]

/-- One complete trim-worker execution, with or without a `stop()` request
    during the run (the interleaving position does not matter for
    counting events by kind). -/
def trim_execution (env : TrimEnv) (stopRequested : Bool) : List WEvent :=
  (if stopRequested then trim_stop_events else []) ++ (trim_run env).events

/-- Number of terminal events (`finished` or `error`) in a trace. -/
def terminal_count (evts : List WEvent) : ℕ :=
  (evts.filter isTerminalEvent).length

/-! ### Event-kind bookkeeping lemmas -/

theorem filter_map_progressText (p : WEvent → Bool)
    (hp : ∀ s, p (WEvent.progressText s) = false) (xs : List String) :
    List.filter p (xs.map WEvent.progressText) = [] := by
  induction xs with
  | nil => rfl
  | cons x r ih => simp [List.filter, hp, ih]

/-- `_parse_progress` emits no terminal event: every line produces only
    `progressText`, `progress`, and `speedUpdate` emissions. -/
theorem parse_progress_no_terminal (line : String) :
    List.filter isTerminalEvent (parse_progress line) = [] := by
  simp only [parse_progress]
  by_cases hd : (containsSub "[download]".data line.data
      && containsSub "%".data line.data) = true
  · rw [if_pos hd]
    rcases hsp : searchPercent line.data with _ | pp <;>
      rcases hat : searchToken ['a', 't'] line.data with _ | ss <;>
        rcases heta : searchToken ['E', 'T', 'A'] line.data with _ | ee <;>
          simp [List.filter_append, List.filter, isTerminalEvent]
  · rw [if_neg hd]
    by_cases h95 : (containsSub "Merging".data line.data
        || containsSub "Converting".data line.data
        || containsSub "Post-processing".data line.data) = true
    · rw [if_pos h95]; simp [isTerminalEvent]
    · rw [if_neg h95]
      by_cases h98 : containsSub "Deleting original file".data line.data = true
      · rw [if_pos h98]; simp [isTerminalEvent]
      · rw [if_neg h98]; simp [isTerminalEvent]

theorem filter_terminal_flatMap (lines : List String) :
    List.filter isTerminalEvent (lines.flatMap parse_progress) = [] := by
  induction lines with
  | nil => rfl
  | cons x r ih =>
    simp [List.flatMap_cons, List.filter_append, parse_progress_no_terminal, ih]

/-- Every complete `TrimWorker.run` execution emits exactly one terminal
    event on its own. -/
theorem trim_run_one_terminal (env : TrimEnv) :
    terminal_count (trim_run env).events = 1 := by
  simp only [trim_run, terminal_count]
  split_ifs <;>
    simp [List.filter_append, List.filter, isTerminalEvent,
      filter_map_progressText isTerminalEvent (fun _ => rfl)]

/-! ### Claim C5: download worker terminal outcome -/

/-- C5: for a download execution whose subprocess launches and exits, the
    single terminal event is: on non-zero exit, an `error` carrying the
    exit code (and no success event); on zero exit, `finished` with the
    destination size, which is 0 when the destination file is missing
    (still a success, not a failure). -/
theorem claimC5_download_outcome (p : DlParams) (st : DlSettings) (f : String)
    (env : DlEnv) (h : env.launch_fails = false) :
    List.filter isTerminalEvent (download_run p st f env)
      = [if env.exit_code = 0
         then WEvent.finished p.output_filename
            (if env.dest_exists then env.dest_size else 0)
         else WEvent.error ("Download failed with return code "
            ++ toString env.exit_code)] := by
  simp only [download_run, h]
  by_cases he : env.exit_code = 0 <;>
    simp [he, List.filter_append, List.filter, isTerminalEvent,
      filter_terminal_flatMap]

/-- C5 witness: zero exit with a missing destination file still reports
    success with size 0 (not the recorded size, and not a failure). -/
theorem claimC5_download_outcome_witness :
    List.filter isTerminalEvent
        (download_run ⟨"u", "out.mp4", "", [], false⟩
          ⟨"0", "10", "", "false", "", false, "10"⟩ "ffmpeg"
          ⟨false, "", [], 0, false, 999⟩)
      = [WEvent.finished "out.mp4" 0] := by
  rw [claimC5_download_outcome _ _ _ _ rfl]
  decide

/-! ### Claim C3: trim pipeline stage-2 failure -/

/-- C3: the scratch temporary directory is removed on every exit path of
    the trim pipeline; and when stage 1 succeeds and stage 2 (the audio
    fetch) exits non-zero, stages 3-5 never run, exactly one failure event
    is emitted, it carries stage 2's exit code, and no success event is
    emitted. -/
theorem claimC3_trim_stage2_failure (env : TrimEnv) :
    (trim_run env).tmp_removed = true
    ∧ (env.video_exit = 0 → env.audio_exit ≠ 0 →
        (trim_run env).stages_run = [1, 2]
        ∧ List.filter isErrorEvent (trim_run env).events
            = [WEvent.error ("Audio download failed with code "
                ++ toString env.audio_exit)]
        ∧ List.filter isFinishedEvent (trim_run env).events = []) := by
  constructor
  · simp only [trim_run]
    split_ifs <;> rfl
  · intro h1 h2
    simp only [trim_run]
    rw [if_neg (by simp [h1]), if_pos h2]
    refine ⟨rfl, ?_, ?_⟩
    · simp [List.filter_append, List.filter, isErrorEvent,
        filter_map_progressText isErrorEvent (fun _ => rfl)]
    · simp [List.filter_append, List.filter, isFinishedEvent,
        filter_map_progressText isFinishedEvent (fun _ => rfl)]

/-- C3 witness: a concrete environment where the video fetch succeeds and
    the audio fetch exits with code 1. -/
theorem claimC3_trim_stage2_failure_witness :
    (trim_run ⟨"u", "o", "0", "9", 0, [], 1, [], 0, 0, 0, true, 5⟩).stages_run = [1, 2]
    ∧ List.filter isErrorEvent
        (trim_run ⟨"u", "o", "0", "9", 0, [], 1, [], 0, 0, 0, true, 5⟩).events
      = [WEvent.error ("Audio download failed with code " ++ toString (1 : ℤ))]
    ∧ (trim_run ⟨"u", "o", "0", "9", 0, [], 1, [], 0, 0, 0, true, 5⟩).tmp_removed = true := by
  have h := claimC3_trim_stage2_failure ⟨"u", "o", "0", "9", 0, [], 1, [], 0, 0, 0, true, 5⟩
  exact ⟨(h.2 rfl (by decide)).1, (h.2 rfl (by decide)).2.1, h.1⟩

/-! ### Claim C4: exactly one terminal event per worker execution -/

/-- C4 counterexample: a trim execution during which `stop()` is requested
    emits TWO terminal events — `stop()` immediately emits
    `error("Trim operation cancelled.")` while `run()` continues to its own
    terminal event — refuting the claim that every worker execution emits
    exactly one terminal event even under cancellation. -/
theorem claimC4_counterexample :
    terminal_count
        (trim_execution ⟨"u", "o", "0", "1", 0, [], 0, [], 0, 0, 0, true, 7⟩ true) = 2
    ∧ (2 : ℕ) ≠ 1 := by
  refine ⟨by decide, by decide⟩

/-- C4 (amended): a download-worker execution emits exactly one terminal
    event whether or not `stop()` is requested (its `stop` emits nothing
    and the run loop still reaches its single terminal emission); a
    trim-worker execution without `stop()` also emits exactly one; but a
    trim-worker execution with `stop()` requested emits two, because
    `TrimWorker.stop` emits an extra `error` without interrupting the
    run. -/
theorem claimC4_terminal_event_count (p : DlParams) (st : DlSettings)
    (f : String) (env : DlEnv) (tenv : TrimEnv) (stopReq : Bool) :
    terminal_count (download_execution p st f env stopReq) = 1
    ∧ terminal_count (trim_execution tenv false) = 1
    ∧ terminal_count (trim_execution tenv true) = 2 := by
  refine ⟨?_, ?_, ?_⟩
  · simp only [download_execution, download_stop_events, ite_self,
      List.nil_append, terminal_count, download_run]
    by_cases hl : env.launch_fails = true
    · simp [hl, List.filter, isTerminalEvent]
    · simp only [Bool.not_eq_true] at hl
      by_cases he : env.exit_code = 0 <;>
        simp [hl, he, List.filter_append, List.filter, isTerminalEvent,
          filter_terminal_flatMap]
  · have h := trim_run_one_terminal tenv
    simpa [trim_execution, terminal_count] using h
  · simp only [trim_execution, trim_stop_events, if_pos rfl, terminal_count,
      List.filter_append, List.length_append]
    have h := trim_run_one_terminal tenv
    rw [terminal_count] at h
    rw [h]
    decide

/-! ## Queue scheduler (`MainWindow`, main.py 1106-1142, 2190-2214,
    2281-2327, 2362-2478)

`_download_queue` is a plain Python list used FIFO (append at the tail,
pop index 0); `_active_downloads` is a Python integer; the dispatch checks
`"playlist_index" in item` / `"batch_index" in item`, modelled as the
origin tag.  `running` is the ghost count of workers that have been
started and have not yet delivered their terminal event; a terminal-event
handler can only fire when such a worker exists.  All four handlers
(`_on_playlist_item_finished`, `_on_playlist_item_error`,
`_on_batch_item_finished`, `_on_batch_item_error`) end with the same
tail: decrement `_active_downloads` once, then call
`_process_download_queue()` again. -/

inductive Origin where
  | playlistItem (idx : ℕ)
  | batchItem (idx : ℕ)
  | unknown
  deriving DecidableEq, Repr

structure Job where
  url : String
  origin : Origin
  deriving DecidableEq, Repr

structure SchedState where
  queue : List Job
  active : ℤ
  maxConc : ℕ
  running : ℕ
  deriving DecidableEq, Repr

/-- Appending a new download item to `_download_queue`
    (main.py 1934, 2002). -/
def enqueue_job (s : SchedState) (j : Job) : SchedState :=
  ⟨s.queue ++ [j], s.active, s.maxConc, s.running⟩

/-- `_process_download_queue` (main.py 2190-2214): if the concurrency cap
    is reached or the queue is empty, return unchanged; otherwise pop the
    head item, increment `_active_downloads`, and start the worker the
    origin tag selects — an item with neither tag decrements the counter
    back and starts nothing.  Returns the new state and the jobs
    dispatched by this invocation. -/
def process_download_queue (s : SchedState) : SchedState × List Job :=
  if (s.maxConc : ℤ) ≤ s.active then (s, [])
  else
    match s.queue with
    | [] => (s, [])
    | item :: rest =>
      match item.origin with
      | .playlistItem _ => (⟨rest, s.active + 1, s.maxConc, s.running + 1⟩, [item])
      | .batchItem _ => (⟨rest, s.active + 1, s.maxConc, s.running + 1⟩, [item])
      | .unknown => (⟨rest, s.active + 1 - 1, s.maxConc, s.running⟩, [])

/-- Common tail of the four worker terminal-event handlers (main.py
    2308-2311, 2324-2327, 2454-2457, 2475-2478): after the UI updates,
    decrement `_active_downloads` exactly once, then invoke
    `_process_download_queue()` again. -/
def on_worker_terminal (s : SchedState) : SchedState × List Job :=
  process_download_queue ⟨s.queue, s.active - 1, s.maxConc, s.running - 1⟩

/-- The scheduler invariant: `_active_downloads` equals the number of live
    workers (so it is non-negative) and never exceeds the concurrency
    cap. -/
def SchedInv (s : SchedState) : Prop :=
  s.active = (s.running : ℤ) ∧ s.active ≤ (s.maxConc : ℤ)

theorem process_queue_inv {s : SchedState} (hs : SchedInv s) :
    SchedInv (process_download_queue s).1 := by
  obtain ⟨h1, h2⟩ := hs
  unfold process_download_queue
  split
  · exact ⟨h1, h2⟩
  · rename_i hle
    split
    · exact ⟨h1, h2⟩
    · split <;> exact ⟨by push_cast; omega, by push_cast; omega⟩

/-! ### Claim C1: scheduler invariant and terminal-event handling -/

/-- C1: from any state satisfying the invariant, each scheduler operation
    — enqueue, one tick of `_process_download_queue`, and a worker
    terminal event (which requires a live worker) — preserves
    `0 ≤ active_count ≤ max_concurrent`; and every terminal-event handler
    is exactly "decrement `active_count` once, then re-invoke the tick". -/
theorem claimC1_scheduler_invariant (s : SchedState) (j : Job) (hs : SchedInv s) :
    SchedInv (enqueue_job s j)
    ∧ SchedInv (process_download_queue s).1
    ∧ (0 ≤ (process_download_queue s).1.active
       ∧ (process_download_queue s).1.active
           ≤ ((process_download_queue s).1.maxConc : ℤ))
    ∧ (0 < s.running →
        SchedInv (on_worker_terminal s).1
        ∧ 0 ≤ (on_worker_terminal s).1.active
        ∧ (on_worker_terminal s).1.active
            ≤ ((on_worker_terminal s).1.maxConc : ℤ))
    ∧ on_worker_terminal s
        = process_download_queue ⟨s.queue, s.active - 1, s.maxConc, s.running - 1⟩ := by
  have henq : SchedInv (enqueue_job s j) := by
    obtain ⟨h1, h2⟩ := hs
    exact ⟨h1, h2⟩
  have htick : SchedInv (process_download_queue s).1 := process_queue_inv hs
  have hterm : 0 < s.running → SchedInv (on_worker_terminal s).1 := by
    intro hr
    obtain ⟨h1, h2⟩ := hs
    have hdec : SchedInv ⟨s.queue, s.active - 1, s.maxConc, s.running - 1⟩ := by
      refine ⟨?_, ?_⟩
      · show s.active - 1 = ((s.running - 1 : ℕ) : ℤ)
        rw [Nat.cast_sub (by omega : 1 ≤ s.running)]
        omega
      · show s.active - 1 ≤ (s.maxConc : ℤ)
        omega
    exact process_queue_inv hdec
  refine ⟨henq, htick, ⟨?_, htick.2⟩, fun hr => ⟨hterm hr, ?_, (hterm hr).2⟩, rfl⟩
  · have := htick.1
    omega
  · have := (hterm hr).1
    omega

/-- C1 witness: a concrete invariant state, with the invariant still
    holding after a tick that dispatches a playlist item. -/
theorem claimC1_scheduler_invariant_witness :
    SchedInv (process_download_queue
        ⟨[⟨"w", Origin.playlistItem 0⟩], 0, 2, 0⟩).1
    ∧ on_worker_terminal ⟨[], 1, 2, 1⟩
        = process_download_queue ⟨[], 0, 2, 0⟩ := by
  have h := claimC1_scheduler_invariant
    ⟨[⟨"w", Origin.playlistItem 0⟩], 0, 2, 0⟩ ⟨"x", Origin.unknown⟩
    ⟨by decide, by decide⟩
  have h2 := claimC1_scheduler_invariant ⟨[], 1, 2, 1⟩ ⟨"x", Origin.unknown⟩
    ⟨by decide, by decide⟩
  exact ⟨h.2.1, h2.2.2.2.2⟩

/-! ### Claim C2: what one tick invocation does -/

/-- C2 counterexample: with two playlist items queued, `active_count = 0`
    and `max_concurrent = 2`, ONE invocation of
    `_process_download_queue` dispatches only the first item: afterwards
    the queue is still non-empty and `active_count < max_concurrent`, so
    the claimed "repeat while capacity remains and the queue is
    non-empty" does not happen — the function has no loop. -/
theorem claimC2_counterexample :
    (process_download_queue
        ⟨[⟨"a", Origin.playlistItem 0⟩, ⟨"b", Origin.playlistItem 1⟩], 0, 2, 0⟩).2
      = [⟨"a", Origin.playlistItem 0⟩]
    ∧ (process_download_queue
        ⟨[⟨"a", Origin.playlistItem 0⟩, ⟨"b", Origin.playlistItem 1⟩], 0, 2, 0⟩).1.queue
      = [⟨"b", Origin.playlistItem 1⟩]
    ∧ (process_download_queue
        ⟨[⟨"a", Origin.playlistItem 0⟩, ⟨"b", Origin.playlistItem 1⟩], 0, 2, 0⟩).1.active
      = 1
    ∧ (1 : ℤ) < 2 := by
  refine ⟨by decide, by decide, by decide, by decide⟩

/-- C2 (amended): one invocation of `_process_download_queue` dispatches at
    most ONE job: when the cap is reached or the queue is empty it does
    nothing; otherwise it pops exactly the head job (FIFO), and if the
    job's origin tag is a playlist or batch item it increments
    `active_count` and dispatches that job, while a job with an
    unrecognized origin tag is dropped with no net change to
    `active_count` and nothing dispatched.  Draining the queue relies on
    the 1-second timer and the re-invocation after each terminal event,
    not on a loop inside the function. -/
theorem claimC2_single_dispatch (s : SchedState) :
    ((s.maxConc : ℤ) ≤ s.active → process_download_queue s = (s, []))
    ∧ (s.queue = [] → process_download_queue s = (s, []))
    ∧ (∀ j rest, s.queue = j :: rest → s.active < (s.maxConc : ℤ) →
        (j.origin ≠ Origin.unknown →
          process_download_queue s
            = (⟨rest, s.active + 1, s.maxConc, s.running + 1⟩, [j]))
        ∧ (j.origin = Origin.unknown →
          process_download_queue s = (⟨rest, s.active, s.maxConc, s.running⟩, []))) := by
  refine ⟨?_, ?_, ?_⟩
  · intro hle
    rw [process_download_queue, if_pos hle]
  · intro hq
    rw [process_download_queue, hq]
    split <;> rfl
  · intro j rest hq hlt
    constructor
    · intro hor
      rw [process_download_queue, if_neg (by omega), hq]
      cases ho : j.origin with
      | playlistItem i => simp only [ho]
      | batchItem i => simp only [ho]
      | unknown => exact absurd ho hor
    · intro hor
      rw [process_download_queue, if_neg (by omega), hq]
      simp only [hor]
      simp

/-- C2 witness: from a state with one playlist item, capacity 2 and no
    active downloads, one tick pops that head item, increments the
    counter, and dispatches it. -/
theorem claimC2_single_dispatch_witness :
    process_download_queue ⟨[⟨"a", Origin.playlistItem 0⟩], 0, 2, 0⟩
      = (⟨[], 1, 2, 1⟩, [⟨"a", Origin.playlistItem 0⟩]) := by
  exact ((claimC2_single_dispatch
      ⟨[⟨"a", Origin.playlistItem 0⟩], 0, 2, 0⟩).2.2
    ⟨"a", Origin.playlistItem 0⟩ [] rfl (by decide)).1 (by decide)
